import Mathlib

/-!
Shallow embedding of `src/backend/base/langflow/components/composio/composio_api.py`
(the `ComposioAPIComponent` class) and verification of its specification.

The vendor SDK (`composio` / `composio_langchain`) is modelled as an opaque
environment `Vendor`: each SDK call the component makes is a field of the
environment returning `Except Exc α`, where `Exc` models Python exceptions
(`NoItemsFound` is distinguished because the code catches it specifically;
every other exception is opaque and carries only its `str(e)` message).
The component's own attributes (`self.entity_id`, `self.api_key`, ...) are a
record `Component`; `build_config` is a record `BuildConfig` holding exactly
the fields the code reads or writes.
-/

/-- A Python exception, as far as this component can observe it:
either the vendor's `NoItemsFound` (caught specifically by the code) or any
other exception, identified only by its `str(e)` message. -/
inductive Exc where
  | noItemsFound (msg : String)
  | other (msg : String)
deriving DecidableEq, Repr

/-- `str(e)` of an exception: the message it carries. -/
def Exc.msg : Exc → String
  | .noItemsFound m => m
  | .other m => m

/-- An opaque tool object returned by `ComposioToolSet.get_tools`. -/
structure Tool where
  id : String
deriving DecidableEq, Repr

/-- The vendor SDK environment: one field per SDK call the component makes,
plus the two module-level catalogs `App.__annotations__` and
`Action.__annotations__` (lists of identifier strings). -/
structure Vendor where
  /-- `ComposioToolSet(api_key=...)` construction (`_build_wrapper`). -/
  buildWrapper : Except Exc Unit
  /-- `toolset.client.get_entity(id=entity_id)`. -/
  getEntity : String → Except Exc Unit
  /-- `entity.get_connection(app=app)`, keyed by entity id and app name. -/
  getConnection : String → String → Except Exc Unit
  /-- `toolset.client.apps.get(app).auth_schemes`, as the list of each
  scheme's `auth_mode` string. -/
  getAuthSchemes : String → Except Exc (List String)
  /-- `entity.initiate_connection(app_name=app, use_composio_auth=True,
  force_new_integration=True)`, returning `connection.redirectUrl`. -/
  initiateOauth : String → String → Except Exc String
  /-- `entity.initiate_connection(app_name=app, auth_mode="API_KEY",
  auth_config={"api_key": key}, use_composio_auth=False,
  force_new_integration=True)`; the result object is discarded by the code. -/
  initiateApiKey : String → String → String → Except Exc Unit
  /-- `toolset.client.get_entity(id=...).get_connections()`, reduced to the
  deduplicated list of `connection.appUniqueId` strings the code builds
  from it (`list({connection.appUniqueId for connection in connections})`). -/
  getConnections : String → Except Exc (List String)
  /-- `composio_toolset.get_tools(actions=...)`. -/
  getTools : List String → Except Exc (List Tool)
  /-- `App.__annotations__` as a list (known app identifiers). -/
  apps : List String
  /-- `Action.__annotations__` as a list (known action identifiers). -/
  actions : List String

/-- The component's own attributes read by the methods under study.
`api_key` is `none` when the attribute is absent (`hasattr` is false). -/
structure Component where
  entity_id : String
  api_key : Option String
  app_names : String
  auth_status_config : String
  action_names : List String
deriving DecidableEq, Repr

/-- The guard `hasattr(self, "api_key") and self.api_key != ""`. -/
def Component.apiKeyOk (c : Component) : Bool :=
  match c.api_key with
  | none => false
  | some k => k != ""

/-- The build-config fields the code reads or writes:
`build_config["app_names"]["options" | "value"]`,
`build_config["auth_link"]["value"]`, `build_config["auth_status"]["value"]`,
`build_config["action_names"]["options" | "value"]`. -/
structure BuildConfig where
  app_names_options : List String
  app_names_value : String
  auth_link_value : String
  auth_status_value : String
  action_names_options : List String
  action_names_value : List String
deriving DecidableEq, Repr

/-- Python's substring containment `pat in s`, on character lists. -/
def containsSub (s pat : List Char) : Bool :=
  match s with
  | [] => pat.isEmpty
  | _ :: rest => pat.isPrefixOf s || containsSub rest pat

/-- Worker for `replaceList`: scan left to right; while `skip > 0` we are
inside a matched occurrence and drop characters without emitting them. -/
def replaceAux (pat : List Char) : Nat → List Char → List Char
  | _, [] => []
  | Nat.succ k, _ :: rest => replaceAux pat k rest
  | 0, c :: rest =>
    if pat ≠ [] ∧ pat.isPrefixOf (c :: rest) then
      replaceAux pat (pat.length - 1) rest
    else
      c :: replaceAux pat 0 rest

/-- Python's `s.replace(pat, "")` (remove every non-overlapping occurrence
of `pat`, scanning left to right), on character lists. -/
def replaceList (pat s : List Char) : List Char :=
  replaceAux pat 0 s

/-- Python's `s.replace(pat, "")` lifted to `String`. -/
def strReplaceEmpty (s pat : String) : String :=
  ⟨replaceList pat.data s.data⟩

/-- Python's `pat in s` lifted to `String`. -/
def strContains (s pat : String) : Bool :=
  containsSub s.data pat.data

/-- `pat` begins `s` (used to state "the status string begins with ..."). -/
def strHasPrefix (s pat : String) : Bool :=
  pat.data.isPrefixOf s.data

/-- `_get_normalized_app_name`:
`self.app_names.replace("_CONNECTED", "").replace("_connected", "")`. -/
def _get_normalized_app_name (c : Component) : String :=
  strReplaceEmpty (strReplaceEmpty c.app_names "_CONNECTED") "_connected"

/-- `_process_api_key_auth(entity, app)`. Reads `self.auth_status_config`
and either returns a status string or lets an exception from
`entity.initiate_connection` escape (to `_handle_authorization_failure`). -/
def _process_api_key_auth (v : Vendor) (c : Component) (app : String) :
    Except Exc String :=
  let auth_status_config := c.auth_status_config
  let is_url := strContains auth_status_config "http"
    || strContains auth_status_config "https"
  let is_different_app := strContains auth_status_config "CONNECTED"
    && !(strContains auth_status_config app)
  let is_default_api_key_message := strContains auth_status_config "API Key"
  if is_different_app || is_url || is_default_api_key_message then
    pure "Enter API Key"
  else if !is_default_api_key_message then do
    let _ ← v.initiateApiKey c.entity_id app c.auth_status_config
    pure (app ++ " CONNECTED")
  else
    pure "Enter API Key"

/-- `_initiate_default_connection(entity, app)`: initiate an OAuth-style
connection and return its `redirectUrl`. -/
def _initiate_default_connection (v : Vendor) (c : Component) (app : String) :
    Except Exc String :=
  v.initiateOauth c.entity_id app

/-- `_handle_authorization_failure(toolset, entity, app)`: inspect the app's
auth schemes and dispatch; any exception inside is caught and turned into
the literal string `"Error"`. -/
def _handle_authorization_failure (v : Vendor) (c : Component) (app : String) :
    String :=
  let attempt : Except Exc String := do
    let auth_schemes ← v.getAuthSchemes app
    match auth_schemes.head? with
    | none => throw (Exc.other "list index out of range")
    | some auth_mode =>
      if auth_mode == "API_KEY" then _process_api_key_auth v c app
      else _initiate_default_connection v c app
  match attempt with
  | .ok s => s
  | .error _ => "Error"

/-- `_check_for_authorization(app)`. `_build_wrapper()` and `get_entity` run
outside any `try`, so their exceptions propagate; any exception at all from
`entity.get_connection` is caught and routed to
`_handle_authorization_failure`. -/
def _check_for_authorization (v : Vendor) (c : Component) (app : String) :
    Except Exc String := do
  let _ ← v.buildWrapper
  let _ ← v.getEntity c.entity_id
  match v.getConnection c.entity_id app with
  | .ok _ => pure (app ++ " CONNECTED")
  | .error _ => pure (_handle_authorization_failure v c app)

/-- `_get_connected_app_names_for_entity()` (exceptions propagate). -/
def _get_connected_app_names_for_entity (v : Vendor) (c : Component) :
    Except Exc (List String) := do
  let _ ← v.buildWrapper
  v.getConnections c.entity_id

/-- `_update_app_names_with_connected_status(build_config)`. -/
def _update_app_names_with_connected_status (v : Vendor) (c : Component)
    (build_config : BuildConfig) : Except Exc BuildConfig := do
  let connected_app_names ← _get_connected_app_names_for_entity v c
  let app_names := (v.apps.filter
      (fun app_name => connected_app_names.contains app_name.toLower)).map
      (fun app_name => app_name ++ "_CONNECTED")
  let non_connected_app_names := v.apps.filter
      (fun app_name => !(connected_app_names.contains app_name.toLower))
  pure { build_config with
    app_names_options := app_names ++ non_connected_app_names
    app_names_value := match app_names with | [] => "" | a :: _ => a }

/-- The status-check `try` block of `update_build_config` for field
`app_names`: everything from `self._build_wrapper()` down to the inner
`try/except NoItemsFound` and its handler. Returns the
`(auth_status, auth_link)` pair it would write, or the exception the outer
`except` will catch. -/
def statusCheck (v : Vendor) (c : Component) (app_name : String) :
    Except Exc (String × String) := do
  let _ ← v.buildWrapper
  let _ ← v.getEntity c.entity_id
  match v.getConnection c.entity_id app_name with
  | .ok _ => pure (app_name ++ " CONNECTED", "")
  | .error (.noItemsFound _) => do
    let auth_schemes ← v.getAuthSchemes app_name
    match auth_schemes.head? with
    | none => throw (Exc.other "list index out of range")
    | some auth_mode =>
      if auth_mode == "API_KEY" then
        pure ("Enter API Key", "")
      else do
        let auth_url ← _initiate_default_connection v c app_name
        pure ("Click link to authenticate", auth_url)
  | .error e => throw e

/-- `update_build_config(build_config, field_value, field_name)`. The result
is `Except` because the `api_key` branch can let a vendor exception
propagate; the `app_names` branch never can (its `try` catches everything
and writes an `"Error: ..."` status instead). -/
def update_build_config (v : Vendor) (c : Component)
    (build_config : BuildConfig) (field_name : Option String) :
    Except Exc BuildConfig :=
  if field_name = some "api_key" then
    if c.apiKeyOk then
      _update_app_names_with_connected_status v c build_config
    else
      pure build_config
  else if field_name = some "app_names" ∧ c.apiKeyOk then
    let app_name := _get_normalized_app_name c
    let bc1 :=
      match statusCheck v c app_name with
      | .ok (status, link) =>
        { build_config with auth_status_value := status, auth_link_value := link }
      | .error e =>
        { build_config with auth_link_value := "",
                            auth_status_value := "Error: " ++ e.msg }
    let all_action_names := v.actions
    let app_action_names := all_action_names.filter
      (fun action_name =>
        action_name.toLower.startsWith (app_name.toLower ++ "_"))
    pure { bc1 with
      action_names_options := app_action_names
      action_names_value :=
        match app_action_names with | [] => [""] | a :: _ => [a] }
  else
    pure build_config

/-- `build_tool()`: build the wrapper and return
`composio_toolset.get_tools(actions=self.action_names)` as is. -/
def build_tool (v : Vendor) (c : Component) : Except Exc (List Tool) := do
  let _ ← v.buildWrapper
  v.getTools c.action_names

/-! ### Helper lemmas on the string model -/

/-- If `pat` does not occur in `s`, replacing it removes nothing. -/
theorem replaceList_of_not_contains (pat : List Char) :
    ∀ s : List Char, containsSub s pat = false → replaceList pat s = s := by
  intro s
  induction s with
  | nil => intro _; rfl
  | cons c rest ih =>
    intro h
    simp only [containsSub, Bool.or_eq_false_iff] at h
    obtain ⟨hpre, hrest⟩ := h
    show replaceAux pat 0 (c :: rest) = c :: rest
    simp only [replaceAux]
    rw [if_neg]
    · exact congrArg (c :: ·) (ih hrest)
    · rintro ⟨-, hp⟩
      rw [hpre] at hp
      exact Bool.false_ne_true hp

/-- While skipping over a matched occurrence, `replaceAux` drops exactly the
skipped characters. -/
theorem replaceAux_skip (pat : List Char) :
    ∀ xs t : List Char, replaceAux pat xs.length (xs ++ t) = replaceAux pat 0 t := by
  intro xs
  induction xs with
  | nil => intro _; rfl
  | cons x xs ih => intro t; exact ih t

/-- A strict prefix survives dropping the last element. -/
theorem prefix_dropLast {α : Type} {l₁ l₂ : List α} (h : l₁ <+: l₂)
    (hlt : l₁.length < l₂.length) : l₁ <+: l₂.dropLast := by
  obtain ⟨t, rfl⟩ := h
  have ht : t ≠ [] := by
    rintro rfl
    simp at hlt
  rw [List.dropLast_append_of_ne_nil l₁ ht]
  exact ⟨t.dropLast, rfl⟩

/-- Removing `pat` from `base ++ pat` yields `base`, provided the only
occurrence of `pat` is the final one (no occurrence fits inside
`base ++ pat.dropLast`). -/
theorem replaceList_append_pat (pat : List Char) (hpat : pat ≠ []) :
    ∀ base : List Char, containsSub (base ++ pat.dropLast) pat = false →
    replaceList pat (base ++ pat) = base := by
  intro base
  induction base with
  | nil =>
    intro _
    match pat, hpat with
    | p :: ps, _ =>
      show replaceAux (p :: ps) 0 ([] ++ (p :: ps)) = []
      rw [List.nil_append]
      simp only [replaceAux]
      rw [if_pos ⟨List.cons_ne_nil p ps,
        List.isPrefixOf_iff_prefix.mpr (List.prefix_refl _)⟩]
      have hlen : (p :: ps).length - 1 = ps.length := by simp
      have hskip := replaceAux_skip (p :: ps) ps []
      rw [List.append_nil] at hskip
      rw [hlen, hskip]
      rfl
  | cons c b' ih =>
    intro h
    rw [List.cons_append] at h
    simp only [containsSub, Bool.or_eq_false_iff] at h
    obtain ⟨hpre, hrest⟩ := h
    show replaceAux pat 0 ((c :: b') ++ pat) = c :: b'
    rw [List.cons_append]
    simp only [replaceAux]
    rw [if_neg]
    · exact congrArg (c :: ·) (ih hrest)
    · rintro ⟨-, hp⟩
      rw [List.isPrefixOf_iff_prefix] at hp
      have hlt : pat.length < (c :: (b' ++ pat)).length := by
        simp only [List.length_cons, List.length_append]
        omega
      have hdl := prefix_dropLast hp hlt
      have hrw : (c :: (b' ++ pat)).dropLast = c :: (b' ++ pat.dropLast) := by
        rw [← List.cons_append, List.dropLast_append_of_ne_nil (c :: b') hpat,
          List.cons_append]
      rw [hrw, ← List.isPrefixOf_iff_prefix, hpre] at hdl
      exact Bool.false_ne_true hdl

/-- `"Error: " ++ m` begins with `"Error:"`. -/
theorem strHasPrefix_error_colon (m : String) :
    strHasPrefix ("Error: " ++ m) "Error:" = true := by
  simp only [strHasPrefix, String.data_append]
  rw [List.isPrefixOf_iff_prefix]
  exact ⟨' ' :: m.data, rfl⟩

/-- Appending a fixed suffix is injective on strings. -/
theorem append_right_injective_str (s : String) :
    Function.Injective (fun a : String => a ++ s) := by
  intro a b h
  apply String.ext
  have h2 := congrArg String.data h
  simp only [String.data_append] at h2
  exact List.append_cancel_right h2

/-! ### Reduction helpers for the `Except` embedding -/

theorem except_ok_bind {ε α β : Type} (a : α) (f : α → Except ε β) :
    (Except.ok a >>= f) = f a := rfl

theorem except_error_bind {ε α β : Type} (e : ε) (f : α → Except ε β) :
    ((Except.error e : Except ε α) >>= f) = Except.error e := rfl

theorem except_pure_eq {ε α : Type} (a : α) :
    (pure a : Except ε α) = Except.ok a := rfl

/-- The `(auth_status, auth_link)` pair the `app_names` branch of
`update_build_config` writes: the `statusCheck` result on success, the
`"Error: ..."` display pair when the outer `except` catches. -/
def statusOf (v : Vendor) (c : Component) : String × String :=
  match statusCheck v c (_get_normalized_app_name c) with
  | .ok sl => sl
  | .error e => ("Error: " ++ e.msg, "")

/-- The filtered action list the `app_names` branch computes. -/
def actionOptions (v : Vendor) (app_name : String) : List String :=
  v.actions.filter
    (fun action_name => action_name.toLower.startsWith (app_name.toLower ++ "_"))

/-- Characterization of the `app_names` branch of `update_build_config`:
it never raises, writes the `statusOf` pair into `auth_status`/`auth_link`,
and writes the filtered action options and their first element. -/
theorem update_build_config_app_names (v : Vendor) (c : Component)
    (bc : BuildConfig) (hkey : c.apiKeyOk = true) :
    update_build_config v c bc (some "app_names") = .ok
      { bc with
        auth_status_value := (statusOf v c).1
        auth_link_value := (statusOf v c).2
        action_names_options := actionOptions v (_get_normalized_app_name c)
        action_names_value :=
          match actionOptions v (_get_normalized_app_name c) with
          | [] => [""]
          | a :: _ => [a] } := by
  simp only [update_build_config, statusOf, actionOptions]
  rw [if_neg (by simp), if_pos ⟨trivial, hkey⟩]
  cases hsc : statusCheck v c (_get_normalized_app_name c) with
  | ok sl => cases sl; rfl
  | error e => rfl

/-! ### Concrete scenarios used by witness and counterexample theorems -/

def wComp : Component where
  entity_id := "default"
  api_key := some "key123"
  app_names := "GITHUB"
  auth_status_config := "Not Connected"
  action_names := ["GITHUB_GET_REPO"]

def wBC : BuildConfig where
  app_names_options := ["GMAIL", "GITHUB", "SLACK"]
  app_names_value := "GITHUB"
  auth_link_value := ""
  auth_status_value := "Not Connected"
  action_names_options := []
  action_names_value := []

def wVendor : Vendor where
  buildWrapper := .ok ()
  getEntity := fun _ => .ok ()
  getConnection := fun _ _ => .ok ()
  getAuthSchemes := fun _ => .ok ["OAUTH2"]
  initiateOauth := fun _ _ => .ok "https://redirect.example/auth"
  initiateApiKey := fun _ _ _ => .ok ()
  getConnections := fun _ => .ok ["gmail"]
  getTools := fun names => .ok (names.map Tool.mk)
  apps := ["GMAIL", "GITHUB", "SLACK"]
  actions := ["GMAIL_SEND_EMAIL", "GITHUB_GET_REPO", "GITHUB_STAR_REPO",
    "SLACK_SEND_MESSAGE"]

/-! ### Claims -/

/-- **C2.** When the vendor connection lookup succeeds for the selected app,
the `app_names` update sets `auth_status` to `"<app> CONNECTED"` (with
`<app>` the normalized app name) and clears `auth_link`, raising nothing. -/
theorem C2_connected_clears_link (v : Vendor) (c : Component) (bc : BuildConfig)
    (hkey : c.apiKeyOk = true)
    (hb : v.buildWrapper = .ok ()) (he : v.getEntity c.entity_id = .ok ())
    (hconn : v.getConnection c.entity_id (_get_normalized_app_name c) = .ok ()) :
    ∃ bc', update_build_config v c bc (some "app_names") = .ok bc'
      ∧ bc'.auth_status_value = _get_normalized_app_name c ++ " CONNECTED"
      ∧ bc'.auth_link_value = "" := by
  have hs : statusOf v c = (_get_normalized_app_name c ++ " CONNECTED", "") := by
    simp [statusOf, statusCheck, hb, he, hconn, except_ok_bind]
  exact ⟨_, update_build_config_app_names v c bc hkey, by simp [hs], by simp [hs]⟩

theorem C2_connected_clears_link_witness :
    ∃ bc', update_build_config wVendor wComp wBC (some "app_names") = .ok bc'
      ∧ bc'.auth_status_value = _get_normalized_app_name wComp ++ " CONNECTED"
      ∧ bc'.auth_link_value = "" :=
  C2_connected_clears_link wVendor wComp wBC rfl rfl rfl rfl

/-- **C3.** After an `app_names` update, the offered `action_names` options
are exactly the catalog actions (in catalog order) whose lowercase form
starts with the lowercase normalized app name followed by `"_"`. -/
theorem C3_action_filter (v : Vendor) (c : Component) (bc : BuildConfig)
    (hkey : c.apiKeyOk = true) :
    ∃ bc', update_build_config v c bc (some "app_names") = .ok bc'
      ∧ bc'.action_names_options = v.actions.filter
          (fun a => a.toLower.startsWith ((_get_normalized_app_name c).toLower ++ "_"))
      ∧ (∀ a, a ∈ bc'.action_names_options ↔
          a ∈ v.actions
          ∧ a.toLower.startsWith ((_get_normalized_app_name c).toLower ++ "_") = true) := by
  refine ⟨_, update_build_config_app_names v c bc hkey, rfl, ?_⟩
  intro a
  simp [actionOptions, List.mem_filter]

theorem C3_action_filter_witness :
    ∃ bc', update_build_config wVendor wComp wBC (some "app_names") = .ok bc'
      ∧ bc'.action_names_options = wVendor.actions.filter
          (fun a => a.toLower.startsWith ((_get_normalized_app_name wComp).toLower ++ "_"))
      ∧ (∀ a, a ∈ bc'.action_names_options ↔
          a ∈ wVendor.actions
          ∧ a.toLower.startsWith ((_get_normalized_app_name wComp).toLower ++ "_") = true) :=
  C3_action_filter wVendor wComp wBC rfl

/-- **C9.** `build_tool` returns exactly the tools the vendor toolset yields
for the selected action names and propagates any vendor exception
unmodified. -/
theorem C9_build_tool_passthrough (v : Vendor) (c : Component)
    (hb : v.buildWrapper = .ok ()) :
    build_tool v c = v.getTools c.action_names
    ∧ (∀ ts, v.getTools c.action_names = .ok ts → build_tool v c = .ok ts)
    ∧ (∀ e, v.getTools c.action_names = .error e → build_tool v c = .error e) := by
  have h : build_tool v c = v.getTools c.action_names := by
    simp [build_tool, hb, except_ok_bind]
  exact ⟨h, fun _ hts => h.trans hts, fun _ hts => h.trans hts⟩

theorem C9_build_tool_passthrough_witness :
    build_tool wVendor wComp = wVendor.getTools wComp.action_names
    ∧ (∀ ts, wVendor.getTools wComp.action_names = .ok ts →
        build_tool wVendor wComp = .ok ts)
    ∧ (∀ e, wVendor.getTools wComp.action_names = .error e →
        build_tool wVendor wComp = .error e) :=
  C9_build_tool_passthrough wVendor wComp rfl

/-- **C10.** For any field other than `api_key` and `app_names`, and also
whenever the `api_key` attribute is absent or empty, `update_build_config`
returns the build config unchanged, for every vendor behaviour (so no
vendor call can influence the result). -/
theorem C10_frame (c : Component) (bc : BuildConfig) (fn : Option String) :
    (fn ≠ some "api_key" → fn ≠ some "app_names" →
      ∀ v : Vendor, update_build_config v c bc fn = .ok bc)
    ∧ (c.apiKeyOk = false →
      ∀ v : Vendor, update_build_config v c bc fn = .ok bc) := by
  constructor
  · intro h1 h2 v
    simp only [update_build_config]
    rw [if_neg h1, if_neg (fun hc => h2 hc.1)]
    rfl
  · intro hk v
    simp only [update_build_config]
    by_cases hfn : fn = some "api_key"
    · rw [if_pos hfn, if_neg (fun ht => Bool.false_ne_true (hk ▸ ht))]
      rfl
    · rw [if_neg hfn,
        if_neg (fun hc => Bool.false_ne_true (hk ▸ hc.2))]
      rfl

theorem C10_frame_witness :
    update_build_config wVendor wComp wBC (some "auth_status") = .ok wBC
    ∧ update_build_config wVendor { wComp with api_key := none } wBC
        (some "app_names") = .ok wBC :=
  ⟨(C10_frame wComp wBC (some "auth_status")).1 (by decide) (by decide) wVendor,
   (C10_frame { wComp with api_key := none } wBC (some "app_names")).2 rfl wVendor⟩

def wVendorApiKey : Vendor := { wVendor with
  getConnection := fun _ _ => .error (.noItemsFound "no connection")
  getAuthSchemes := fun _ => .ok ["API_KEY"] }

def wVendorOauth : Vendor := { wVendor with
  getConnection := fun _ _ => .error (.noItemsFound "no connection") }

def wCompPrior : Component := { wComp with auth_status_config := "Enter API Key" }

/-- **C5.** For an app whose first declared auth scheme is `"API_KEY"`, the
`app_names` update writes `"Enter API Key"` (and no link); and
`_process_api_key_auth` returns `"Enter API Key"` whenever the prior
auth-status text is a URL, mentions a different app as CONNECTED, or is the
default "API Key" message. -/
theorem C5_enter_api_key (v : Vendor) (c : Component) (bc : BuildConfig)
    (m app : String) (rest : List String)
    (hkey : c.apiKeyOk = true)
    (hb : v.buildWrapper = .ok ()) (he : v.getEntity c.entity_id = .ok ())
    (hconn : v.getConnection c.entity_id (_get_normalized_app_name c)
      = .error (.noItemsFound m))
    (hschemes : v.getAuthSchemes (_get_normalized_app_name c)
      = .ok ("API_KEY" :: rest))
    (hprior : ((strContains c.auth_status_config "CONNECTED"
          && !(strContains c.auth_status_config app))
        || (strContains c.auth_status_config "http"
          || strContains c.auth_status_config "https")
        || strContains c.auth_status_config "API Key") = true) :
    (∃ bc', update_build_config v c bc (some "app_names") = .ok bc'
      ∧ bc'.auth_status_value = "Enter API Key"
      ∧ bc'.auth_link_value = "")
    ∧ _process_api_key_auth v c app = .ok "Enter API Key" := by
  have hs : statusOf v c = ("Enter API Key", "") := by
    simp [statusOf, statusCheck, hb, he, hconn, hschemes, except_ok_bind]
  refine ⟨⟨_, update_build_config_app_names v c bc hkey,
    by simp [hs], by simp [hs]⟩, ?_⟩
  simp only [_process_api_key_auth]
  rw [if_pos hprior]
  rfl

theorem C5_enter_api_key_witness :
    (∃ bc', update_build_config wVendorApiKey wCompPrior wBC (some "app_names")
        = .ok bc'
      ∧ bc'.auth_status_value = "Enter API Key"
      ∧ bc'.auth_link_value = "")
    ∧ _process_api_key_auth wVendorApiKey wCompPrior "GITHUB"
        = .ok "Enter API Key" :=
  C5_enter_api_key wVendorApiKey wCompPrior wBC "no connection" "GITHUB" []
    rfl rfl rfl rfl rfl (by decide)

/-- **C6.** For an app with link-based (non-API-key) auth and no existing
connection, the `app_names` update sets `auth_link` to the vendor's redirect
URL (non-empty when the vendor supplies a non-empty one) and sets
`auth_status` to `"Click link to authenticate"`. -/
theorem C6_oauth_link (v : Vendor) (c : Component) (bc : BuildConfig)
    (m url mode : String) (rest : List String)
    (hkey : c.apiKeyOk = true)
    (hb : v.buildWrapper = .ok ()) (he : v.getEntity c.entity_id = .ok ())
    (hconn : v.getConnection c.entity_id (_get_normalized_app_name c)
      = .error (.noItemsFound m))
    (hschemes : v.getAuthSchemes (_get_normalized_app_name c)
      = .ok (mode :: rest))
    (hmode : mode ≠ "API_KEY")
    (hurl : v.initiateOauth c.entity_id (_get_normalized_app_name c) = .ok url)
    (hne : url ≠ "") :
    ∃ bc', update_build_config v c bc (some "app_names") = .ok bc'
      ∧ bc'.auth_status_value = "Click link to authenticate"
      ∧ bc'.auth_link_value = url
      ∧ bc'.auth_link_value ≠ "" := by
  have hmb : (mode == "API_KEY") = false := by
    simp [hmode]
  have hs : statusOf v c = ("Click link to authenticate", url) := by
    simp [statusOf, statusCheck, hb, he, hconn, hschemes, except_ok_bind,
      _initiate_default_connection, hurl, hmb, hmode]
  exact ⟨_, update_build_config_app_names v c bc hkey,
    by simp [hs], by simp [hs], by simp [hs, hne]⟩

theorem C6_oauth_link_witness :
    ∃ bc', update_build_config wVendorOauth wComp wBC (some "app_names")
        = .ok bc'
      ∧ bc'.auth_status_value = "Click link to authenticate"
      ∧ bc'.auth_link_value = "https://redirect.example/auth"
      ∧ bc'.auth_link_value ≠ "" :=
  C6_oauth_link wVendorOauth wComp wBC "no connection"
    "https://redirect.example/auth" "OAUTH2" []
    rfl rfl rfl rfl rfl (by decide) rfl (by decide)

def wVendorBoom : Vendor := { wVendor with
  getConnection := fun _ _ => .error (.other "boom")
  getAuthSchemes := fun _ => .error (.other "schemes down") }

def wVendorLookupBoom : Vendor := { wVendor with
  getConnection := fun _ _ => .error (.other "boom") }

/-- **C1 (counterexample).** On an unexpected failure inside the
`_check_for_authorization` path (here the auth-scheme lookup raises), the
status string returned is the bare `"Error"`, which does not begin with
`"Error:"` — refuting the claim's statement about
`_check_for_authorization`. -/
theorem C1_counterexample :
    _check_for_authorization wVendorBoom wComp "GITHUB" = .ok "Error"
    ∧ strHasPrefix "Error" "Error:" = false :=
  ⟨rfl, by decide⟩

/-- **C1 (amended).** Any vendor-side exception during the status check of
an `app_names` update yields `auth_status = "Error: " ++ str(e)` (beginning
with `"Error:"`) and an empty `auth_link`, with no exception propagating;
the status `_check_for_authorization` returns on an unexpected failure,
however, is the bare string `"Error"`, which does not begin with
`"Error:"`. -/
theorem C1_amended (v : Vendor) (c : Component) (bc : BuildConfig)
    (e e1 e2 : Exc) (app : String)
    (hkey : c.apiKeyOk = true)
    (hs : statusCheck v c (_get_normalized_app_name c) = .error e)
    (hb : v.buildWrapper = .ok ()) (he : v.getEntity c.entity_id = .ok ())
    (hconn : v.getConnection c.entity_id app = .error e1)
    (hschemes : v.getAuthSchemes app = .error e2) :
    (∃ bc', update_build_config v c bc (some "app_names") = .ok bc'
      ∧ bc'.auth_status_value = "Error: " ++ e.msg
      ∧ strHasPrefix bc'.auth_status_value "Error:" = true
      ∧ bc'.auth_link_value = "")
    ∧ _check_for_authorization v c app = .ok "Error"
    ∧ strHasPrefix "Error" "Error:" = false := by
  have hsf : statusOf v c = ("Error: " ++ e.msg, "") := by
    simp [statusOf, hs]
  refine ⟨⟨_, update_build_config_app_names v c bc hkey, by simp [hsf],
    by simp [hsf, strHasPrefix_error_colon], by simp [hsf]⟩, ?_, by decide⟩
  simp [_check_for_authorization, hb, he, hconn, except_ok_bind,
    _handle_authorization_failure, hschemes, except_error_bind]

theorem C1_amended_witness :
    (∃ bc', update_build_config wVendorBoom wComp wBC (some "app_names")
        = .ok bc'
      ∧ bc'.auth_status_value = "Error: " ++ (Exc.other "boom").msg
      ∧ strHasPrefix bc'.auth_status_value "Error:" = true
      ∧ bc'.auth_link_value = "")
    ∧ _check_for_authorization wVendorBoom wComp "GITHUB" = .ok "Error"
    ∧ strHasPrefix "Error" "Error:" = false :=
  C1_amended wVendorBoom wComp wBC (.other "boom") (.other "boom")
    (.other "schemes down") "GITHUB" rfl rfl rfl rfl rfl rfl

/-- **C7 (counterexample).** In `_check_for_authorization` a lookup failure
that is *not* the vendor's item-not-found exception is still routed to
auth-scheme inspection: with the lookup raising an opaque `"boom"` error
the method proceeds to initiate a connection and returns the redirect URL,
not an error display string. -/
theorem C7_counterexample :
    _check_for_authorization wVendorLookupBoom wComp "GITHUB"
      = .ok "https://redirect.example/auth"
    ∧ strHasPrefix "https://redirect.example/auth" "Error" = false :=
  ⟨rfl, by decide⟩

/-- **C7 (amended).** In `update_build_config` exactly `NoItemsFound` from
the connection lookup is the normal connection-absent branch (auth-scheme
inspection); any other lookup exception becomes an `"Error: ..."` display
string. In `_check_for_authorization`, by contrast, *every* lookup
exception is routed to `_handle_authorization_failure` (auth-scheme
inspection). -/
theorem C7_amended (v : Vendor) (c : Component) (bc : BuildConfig)
    (m m2 app : String) (rest : List String) (e : Exc)
    (hkey : c.apiKeyOk = true)
    (hb : v.buildWrapper = .ok ()) (he : v.getEntity c.entity_id = .ok ()) :
    (v.getConnection c.entity_id (_get_normalized_app_name c)
        = .error (.other m) →
      ∃ bc', update_build_config v c bc (some "app_names") = .ok bc'
        ∧ bc'.auth_status_value = "Error: " ++ m
        ∧ bc'.auth_link_value = "")
    ∧ (v.getConnection c.entity_id (_get_normalized_app_name c)
          = .error (.noItemsFound m2) →
       v.getAuthSchemes (_get_normalized_app_name c)
          = .ok ("API_KEY" :: rest) →
      ∃ bc', update_build_config v c bc (some "app_names") = .ok bc'
        ∧ bc'.auth_status_value = "Enter API Key")
    ∧ (v.getConnection c.entity_id app = .error e →
      _check_for_authorization v c app
        = .ok (_handle_authorization_failure v c app)) := by
  refine ⟨?_, ?_, ?_⟩
  · intro hconn
    have hsf : statusOf v c = ("Error: " ++ m, "") := by
      simp [statusOf, statusCheck, hb, he, hconn, except_ok_bind, Exc.msg]
    exact ⟨_, update_build_config_app_names v c bc hkey,
      by simp [hsf], by simp [hsf]⟩
  · intro hconn hschemes
    have hsf : statusOf v c = ("Enter API Key", "") := by
      simp [statusOf, statusCheck, hb, he, hconn, hschemes, except_ok_bind]
    exact ⟨_, update_build_config_app_names v c bc hkey, by simp [hsf]⟩
  · intro hconn
    simp [_check_for_authorization, hb, he, hconn, except_ok_bind]

theorem C7_amended_witness :
    (∃ bc', update_build_config wVendorLookupBoom wComp wBC (some "app_names")
        = .ok bc'
      ∧ bc'.auth_status_value = "Error: " ++ "boom"
      ∧ bc'.auth_link_value = "")
    ∧ (∃ bc', update_build_config wVendorApiKey wComp wBC (some "app_names")
        = .ok bc'
      ∧ bc'.auth_status_value = "Enter API Key")
    ∧ _check_for_authorization wVendorLookupBoom wComp "GITHUB"
        = .ok (_handle_authorization_failure wVendorLookupBoom wComp "GITHUB") :=
  ⟨(C7_amended wVendorLookupBoom wComp wBC "boom" "nf" "GITHUB" []
      (.other "boom") rfl rfl rfl).1 rfl,
   (C7_amended wVendorApiKey wComp wBC "boom" "no connection" "GITHUB" []
      (.other "x") rfl rfl rfl).2.1 rfl rfl,
   (C7_amended wVendorLookupBoom wComp wBC "boom" "nf" "GITHUB" []
      (.other "boom") rfl rfl rfl).2.2 rfl⟩

/-- **C4 (counterexample).** A mixed-casing `"_Connected"` suffix is *not*
stripped by `_get_normalized_app_name`: only the exact casings
`"_CONNECTED"` and `"_connected"` are replaced. -/
theorem C4_counterexample :
    _get_normalized_app_name { wComp with app_names := "GITHUB_Connected" }
      = "GITHUB_Connected"
    ∧ ("GITHUB_Connected" : String) ≠ "GITHUB" :=
  ⟨rfl, by decide⟩

/-- **C4 (amended).** `_get_normalized_app_name` strips a `"_CONNECTED"` or
`"_connected"` suffix in exactly those two casings, and leaves a mixed-case
suffix such as `"_Connected"` unchanged: the normalization is
case-sensitive, not case-insensitive. (The side conditions say the base
name creates no spurious occurrence of either pattern.) -/
theorem C4_amended (c : Component) (base : List Char)
    (h1 : containsSub (base ++ "_CONNECTED".data.dropLast) "_CONNECTED".data
      = false)
    (h2 : containsSub base "_connected".data = false)
    (h3 : containsSub (base ++ "_connected".data.dropLast) "_connected".data
      = false)
    (h4 : containsSub (base ++ "_connected".data) "_CONNECTED".data = false)
    (h5 : containsSub (base ++ "_Connected".data) "_CONNECTED".data = false)
    (h6 : containsSub (base ++ "_Connected".data) "_connected".data = false) :
    _get_normalized_app_name { c with app_names := ⟨base ++ "_CONNECTED".data⟩ }
      = ⟨base⟩
    ∧ _get_normalized_app_name { c with app_names := ⟨base ++ "_connected".data⟩ }
      = ⟨base⟩
    ∧ _get_normalized_app_name { c with app_names := ⟨base ++ "_Connected".data⟩ }
      = ⟨base ++ "_Connected".data⟩ := by
  refine ⟨?_, ?_, ?_⟩
  · have e1 : replaceList "_CONNECTED".data (base ++ "_CONNECTED".data) = base :=
      replaceList_append_pat _ (by decide) base h1
    have e2 : replaceList "_connected".data base = base :=
      replaceList_of_not_contains _ base h2
    simp [_get_normalized_app_name, strReplaceEmpty, e1, e2]
  · have e1 : replaceList "_CONNECTED".data (base ++ "_connected".data)
        = base ++ "_connected".data :=
      replaceList_of_not_contains _ _ h4
    have e2 : replaceList "_connected".data (base ++ "_connected".data) = base :=
      replaceList_append_pat _ (by decide) base h3
    simp [_get_normalized_app_name, strReplaceEmpty, e1, e2]
  · have e1 : replaceList "_CONNECTED".data (base ++ "_Connected".data)
        = base ++ "_Connected".data :=
      replaceList_of_not_contains _ _ h5
    have e2 : replaceList "_connected".data (base ++ "_Connected".data)
        = base ++ "_Connected".data :=
      replaceList_of_not_contains _ _ h6
    simp [_get_normalized_app_name, strReplaceEmpty, e1, e2]

theorem C4_amended_witness :
    _get_normalized_app_name
        { wComp with app_names := ⟨"GITHUB".data ++ "_CONNECTED".data⟩ }
      = ⟨"GITHUB".data⟩
    ∧ _get_normalized_app_name
        { wComp with app_names := ⟨"GITHUB".data ++ "_connected".data⟩ }
      = ⟨"GITHUB".data⟩
    ∧ _get_normalized_app_name
        { wComp with app_names := ⟨"GITHUB".data ++ "_Connected".data⟩ }
      = ⟨"GITHUB".data ++ "_Connected".data⟩ :=
  C4_amended wComp "GITHUB".data (by decide) (by decide) (by decide)
    (by decide) (by decide) (by decide)

/-- **C8.** After an `api_key` update with a non-empty key and a successful
vendor connection listing, the `app_names` options are the connected apps
(each suffixed `"_CONNECTED"`) followed by all non-connected apps; assuming
the catalog has no duplicate names and no catalog name equals another name
with `"_CONNECTED"` appended, the options contain every catalog app exactly
once (no duplicates, catalog length); the selected value is the first
connected entry, or `""` when no app is connected. -/
theorem C8_app_refresh (v : Vendor) (c : Component) (bc : BuildConfig)
    (conns : List String)
    (hkey : c.apiKeyOk = true)
    (hb : v.buildWrapper = .ok ())
    (hconns : v.getConnections c.entity_id = .ok conns)
    (hnodup : v.apps.Nodup)
    (hsep : ∀ a ∈ v.apps, ∀ b ∈ v.apps, b ≠ a ++ "_CONNECTED") :
    ∃ bc', update_build_config v c bc (some "api_key") = .ok bc'
      ∧ bc'.app_names_options =
          (v.apps.filter (fun a => conns.contains a.toLower)).map
            (fun a => a ++ "_CONNECTED")
          ++ v.apps.filter (fun a => !(conns.contains a.toLower))
      ∧ bc'.app_names_options.length = v.apps.length
      ∧ bc'.app_names_options.Nodup
      ∧ (∀ a ∈ v.apps, (conns.contains a.toLower = true →
            (a ++ "_CONNECTED") ∈ bc'.app_names_options)
          ∧ (conns.contains a.toLower = false → a ∈ bc'.app_names_options))
      ∧ bc'.app_names_value =
          (match (v.apps.filter (fun a => conns.contains a.toLower)).map
              (fun a => a ++ "_CONNECTED") with
           | [] => ""
           | x :: _ => x)
      ∧ (v.apps.filter (fun a => conns.contains a.toLower) = [] →
          bc'.app_names_value = "") := by
  have hg : _get_connected_app_names_for_entity v c = .ok conns := by
    simp [_get_connected_app_names_for_entity, hb, except_ok_bind, hconns]
  have hu : update_build_config v c bc (some "api_key") = .ok
      { bc with
        app_names_options :=
          (v.apps.filter (fun a => conns.contains a.toLower)).map
            (fun a => a ++ "_CONNECTED")
          ++ v.apps.filter (fun a => !(conns.contains a.toLower))
        app_names_value :=
          match (v.apps.filter (fun a => conns.contains a.toLower)).map
              (fun a => a ++ "_CONNECTED") with
          | [] => ""
          | x :: _ => x } := by
    simp [update_build_config, hkey,
      _update_app_names_with_connected_status, hg, except_ok_bind]
  have hlen : ∀ (p : String → Bool) (l : List String),
      (l.filter p).length + (l.filter (fun a => !(p a))).length = l.length := by
    intro p l
    induction l with
    | nil => rfl
    | cons x xs ih =>
      cases hx : p x
      · simp [List.filter_cons, hx]
        omega
      · simp [List.filter_cons, hx]
        omega
  have hdisj : ((v.apps.filter (fun a => conns.contains a.toLower)).map
      (fun a => a ++ "_CONNECTED")).Disjoint
      (v.apps.filter (fun a => !(conns.contains a.toLower))) := by
    intro x hx1 hx2
    obtain ⟨a, ha, rfl⟩ := List.mem_map.mp hx1
    have ha' : a ∈ v.apps := (List.mem_filter.mp ha).1
    have hx2' : a ++ "_CONNECTED" ∈ v.apps := (List.mem_filter.mp hx2).1
    exact hsep a ha' (a ++ "_CONNECTED") hx2' rfl
  refine ⟨_, hu, rfl, ?_, ?_, ?_, rfl, ?_⟩
  · simp only [List.length_append, List.length_map]
    exact hlen (fun a => conns.contains a.toLower) v.apps
  · refine List.Nodup.append ?_ (hnodup.filter _) hdisj
    exact (hnodup.filter _).map (append_right_injective_str "_CONNECTED")
  · intro a ha
    constructor
    · intro hmem
      apply List.mem_append_left
      exact List.mem_map.mpr ⟨a, List.mem_filter.mpr ⟨ha, hmem⟩, rfl⟩
    · intro hmem
      apply List.mem_append_right
      exact List.mem_filter.mpr ⟨ha, by simp only [hmem, Bool.not_false]⟩
  · intro hempty
    rw [hempty]
    rfl

theorem C8_app_refresh_witness :
    ∃ bc', update_build_config wVendor wComp wBC (some "api_key") = .ok bc'
      ∧ bc'.app_names_options =
          (wVendor.apps.filter (fun a => ["gmail"].contains a.toLower)).map
            (fun a => a ++ "_CONNECTED")
          ++ wVendor.apps.filter (fun a => !(["gmail"].contains a.toLower))
      ∧ bc'.app_names_options.length = wVendor.apps.length
      ∧ bc'.app_names_options.Nodup
      ∧ (∀ a ∈ wVendor.apps, (["gmail"].contains a.toLower = true →
            (a ++ "_CONNECTED") ∈ bc'.app_names_options)
          ∧ (["gmail"].contains a.toLower = false → a ∈ bc'.app_names_options))
      ∧ bc'.app_names_value =
          (match (wVendor.apps.filter (fun a => ["gmail"].contains a.toLower)).map
              (fun a => a ++ "_CONNECTED") with
           | [] => ""
           | x :: _ => x)
      ∧ (wVendor.apps.filter (fun a => ["gmail"].contains a.toLower) = [] →
          bc'.app_names_value = "") :=
  C8_app_refresh wVendor wComp wBC ["gmail"] rfl rfl rfl (by decide) (by decide)
